import Mathlib

/-!
Verification of the ColloAI media-processor pipeline orchestration layer:
a shallow embedding of the configuration merge, the orchestrator state
machine, the video frame path, the enhancement modules' guards, the event
emitter and the AGC gain recursion, with theorems settling the spec's
claims about them.
-/

namespace MediaSpec

/-!
## JavaScript values

Configuration objects are plain JS values: `null`, booleans, numbers
(rational-valued in this embedding), strings, arrays and objects.  An object
is its ordered field list, as a JS object literal produces it.  Arrays and
field lists are their own inductives (rather than `List`) so that the merge
below is plain structural recursion that the kernel can evaluate.
-/

mutual
inductive JSValue where
  | null : JSValue
  | bool : Bool → JSValue
  | num : ℚ → JSValue
  | str : String → JSValue
  | arr : JSArray → JSValue
  | obj : JSFields → JSValue
deriving Repr
inductive JSArray where
  | nil : JSArray
  | cons : JSValue → JSArray → JSArray
deriving Repr
inductive JSFields where
  | nil : JSFields
  | cons : String → JSValue → JSFields → JSFields
deriving Repr
end

/-- Build a field list from a `List` literal (readability helper). -/
def JSFields.ofList : List (String × JSValue) → JSFields
  | [] => .nil
  | (k, v) :: rest => .cons k v (JSFields.ofList rest)

/-- Build a JS array from a `List` literal (readability helper). -/
def JSArray.ofList : List JSValue → JSArray
  | [] => .nil
  | v :: rest => .cons v (JSArray.ofList rest)

/-- Object literal from a key/value list. -/
def jobj (l : List (String × JSValue)) : JSValue := .obj (JSFields.ofList l)

/-- Array literal from a value list. -/
def jarr (l : List JSValue) : JSValue := .arr (JSArray.ofList l)

/-- The keys of a field list, in order. -/
def JSFields.keys : JSFields → List String
  | .nil => []
  | .cons k _ rest => k :: keys rest

/-- Field lookup (first match; JS object keys are unique). -/
def getField : JSFields → String → Option JSValue
  | .nil, _ => none
  | .cons k w rest, key => if k = key then some w else getField rest key

/-- `result[key] = v`: overwrite the existing field in place, else append. -/
def setField : JSFields → String → JSValue → JSFields
  | .nil, key, v => .cons key v .nil
  | .cons k w rest, key, v =>
    if k = key then .cons key v rest else .cons k w (setField rest key v)

/-- JavaScript truthiness: `null`, `false`, `0` and `""` are falsy; arrays and
objects are always truthy (`NaN` does not arise in the embedded fragment). -/
def truthy : JSValue → Bool
  | .null => false
  | .bool b => b
  | .num q => q != 0
  | .str s => s != ""
  | .arr _ => true
  | .obj _ => true

/-- Elements of an array under their decimal index keys, as `{...someArray}`
and `for (key in someArray)` see them. -/
def indexedFields : ℕ → JSArray → JSFields
  | _, .nil => .nil
  | i, .cons v rest => .cons (toString i) v (indexedFields (i + 1) rest)

/-- Characters of a string under their decimal index keys. -/
def stringFields : ℕ → List Char → JSFields
  | _, [] => .nil
  | i, c :: cs => .cons (toString i) (.str (String.mk [c])) (stringFields (i + 1) cs)

/-- The own enumerable fields of a value, as `{...v}` and `for (key in v)` see
them: an object's fields; an array's or string's elements under their decimal
index keys; `null` and the other primitives contribute none. -/
def ownFields : JSValue → JSFields
  | .obj fs => fs
  | .arr xs => indexedFields 0 xs
  | .str s => stringFields 0 s.data
  | _ => .nil

/-- The `result[key] || {}` pattern: the stored value when present and truthy,
otherwise a fresh empty object (an absent key reads as falsy `undefined`). -/
def orEmptyObj : Option JSValue → JSValue
  | some v => if truthy v then v else .obj .nil
  | none => .obj .nil

/-- `MediaProcessor.deepMerge`, unfolded over field lists: `acc` is the working
copy of the target (`result = {...target}`), and the source's own fields are
folded into it one key at a time.  A source value that is a non-null,
non-array object (exactly the JS test `source[key] && typeof source[key] ===
'object' && !Array.isArray(source[key])`) recurses as
`deepMerge(result[key] || {}, source[key])`; every other value — primitive,
array or `null` — replaces the stored value wholesale. -/
def deepMergeFields : JSFields → JSFields → JSFields
  | acc, .nil => acc
  | acc, .cons key (JSValue.obj vfs) rest =>
    deepMergeFields
      (setField acc key
        (.obj (deepMergeFields (ownFields (orEmptyObj (getField acc key))) vfs)))
      rest
  | acc, .cons key v rest => deepMergeFields (setField acc key v) rest

/-- `MediaProcessor.deepMerge(target, source)`: spread the target into a fresh
object, then merge every own field of the source into it. -/
def deepMerge (target source : JSValue) : JSValue :=
  .obj (deepMergeFields (ownFields target) (ownFields source))

/-- The merged value stored for one source field, given the value the working
copy currently holds under that key (how `deepMerge` treats a single field:
recursive merge for objects, wholesale replacement for everything else). -/
def mergeVal (cur : Option JSValue) : JSValue → JSValue
  | .obj vfs => .obj (deepMergeFields (ownFields (orEmptyObj cur)) vfs)
  | v => v

mutual
/-- Structural equality of JS values (models the source's
`JSON.stringify(a) !== JSON.stringify(b)` change test). -/
def JSValue.beq : JSValue → JSValue → Bool
  | .null, .null => true
  | .bool a, .bool b => a == b
  | .num a, .num b => a == b
  | .str a, .str b => a == b
  | .arr a, .arr b => JSArray.beq a b
  | .obj a, .obj b => JSFields.beq a b
  | _, _ => false
def JSArray.beq : JSArray → JSArray → Bool
  | .nil, .nil => true
  | .cons a as, .cons b bs => JSValue.beq a b && JSArray.beq as bs
  | _, _ => false
def JSFields.beq : JSFields → JSFields → Bool
  | .nil, .nil => true
  | .cons k v rest, .cons k' v' rest' =>
    k == k' && JSValue.beq v v' && JSFields.beq rest rest'
  | _, _ => false
end

/-!
## The documented defaults and `mergeConfig`
-/

/-- The default configuration object of `MediaProcessor.mergeConfig`. -/
def defaultConfig : JSValue := jobj [
  ("audio", jobj [
    ("noiseSuppression", jobj [("enabled", .bool false), ("intensity", .str "medium"),
      ("model", .str "rnnoise")]),
    ("agc", jobj [("enabled", .bool false), ("targetLevel", .num (-20)),
      ("compressionRatio", .num 3), ("attackTime", .num 0.1), ("releaseTime", .num 0.5)]),
    ("voiceFocus", jobj [("enabled", .bool false), ("sensitivity", .num 0.8),
      ("frequencyRange", jarr [.num 85, .num 255])])]),
  ("video", jobj [
    ("colorCorrection", jobj [("enabled", .bool false), ("brightness", .num 1),
      ("contrast", .num 1), ("saturation", .num 1), ("gamma", .num 1)]),
    ("lowLightCompensation", jobj [("enabled", .bool false), ("threshold", .num 0.3),
      ("boost", .num 1.5), ("preserveColors", .bool true)]),
    ("backgroundBlur", jobj [("enabled", .bool false), ("intensity", .num 15),
      ("model", .str "bodypix")]),
    ("backgroundReplace", jobj [("enabled", .bool false), ("image", .null),
      ("model", .str "bodypix")])]),
  ("performance", jobj [("targetFPS", .num 30), ("quality", .str "balanced"),
    ("useWebGL", .bool true), ("useWebWorkers", .bool false)])]

/-- `MediaProcessor.mergeConfig(userConfig)`. -/
def mergeConfig (userConfig : JSValue) : JSValue := deepMerge defaultConfig userConfig

/-- Property access `v.key`. -/
def jsGet (v : JSValue) (key : String) : Option JSValue :=
  getField (ownFields v) key

/-- Chained property access along a key path. -/
def jsGetPath (v : JSValue) : List String → Option JSValue
  | [] => some v
  | k :: rest =>
    match jsGet v k with
    | some w => jsGetPath w rest
    | none => none

/-- Truthiness of `cfg.<ns>.<moduleName>.enabled` (false when the path is
absent; the source assumes the merged config is well-formed here). -/
def featureEnabled (cfg : JSValue) (ns moduleName : String) : Bool :=
  match jsGetPath cfg [ns, moduleName, "enabled"] with
  | some v => truthy v
  | none => false

/-- `MediaProcessor.hasAudioFeatures`. -/
def hasAudioFeatures (cfg : JSValue) : Bool :=
  featureEnabled cfg "audio" "noiseSuppression" ||
  featureEnabled cfg "audio" "agc" ||
  featureEnabled cfg "audio" "voiceFocus"

/-- `MediaProcessor.hasVideoFeatures`. -/
def hasVideoFeatures (cfg : JSValue) : Bool :=
  featureEnabled cfg "video" "colorCorrection" ||
  featureEnabled cfg "video" "lowLightCompensation" ||
  featureEnabled cfg "video" "backgroundBlur" ||
  featureEnabled cfg "video" "backgroundReplace"

example : mergeConfig (jobj []) = defaultConfig := rfl
example : hasAudioFeatures defaultConfig = false := by decide
example :
    hasVideoFeatures (mergeConfig (jobj [("video", jobj [("backgroundReplace",
      jobj [("enabled", .bool true)])])])) = true := by decide

/-!
## Streams, pixels and the video enhancement modules
-/

/-- A `MediaStream` as the orchestrator observes it: an identity and its
audio/video track counts (`getAudioTracks().length` / `getVideoTracks().length`). -/
structure MediaStream where
  id : ℕ
  audioTracks : ℕ
  videoTracks : ℕ
deriving Repr, DecidableEq

/-- An `ImageData`: dimensions and the flat RGBA byte array
(a `Uint8ClampedArray`, so entries are integers in 0..255). -/
structure ImageData where
  width : ℕ
  height : ℕ
  data : List ℕ
deriving Repr, DecidableEq

/-- `clamp(value, min, max)` from `core/utils`:
`Math.min(Math.max(value, min), max)`. -/
def clamp {α : Type} [LinearOrder α] (value lo hi : α) : α := min (max value lo) hi

/-- Round half to even, as a `Uint8ClampedArray` store does. -/
def roundHalfEven (q : ℚ) : ℤ :=
  let f := ⌊q⌋
  let frac := q - f
  if frac < 1 / 2 then f
  else if 1 / 2 < frac then f + 1
  else if f % 2 = 0 then f else f + 1

/-- Store a number into a `Uint8ClampedArray` slot: clamp to `[0, 255]`, then
round half to even. -/
def toByte (q : ℚ) : ℕ := (roundHalfEven (clamp q 0 255)).toNat

/-- Read a numeric parameter of a module sub-config, falling back to the
constructor's default when the key is absent (the `{defaults, ...config}`
spread; non-numeric parameter values are outside the embedded fragment). -/
def numField (cfg : JSValue) (key : String) (dflt : ℚ) : ℚ :=
  match jsGet cfg key with
  | some (.num q) => q
  | _ => dflt

/-- Read a boolean parameter of a module sub-config (same convention). -/
def boolField (cfg : JSValue) (key : String) (dflt : Bool) : Bool :=
  match jsGet cfg key with
  | some (.bool b) => b
  | _ => dflt

/-- Read a string parameter of a module sub-config (same convention). -/
def strField (cfg : JSValue) (key : String) (dflt : String) : String :=
  match jsGet cfg key with
  | some (.str s) => s
  | _ => dflt

/-- `LowLightCompensation` module state: its effective config and the
`isInitialized` flag. -/
structure LowLightCompensation where
  threshold : ℚ
  boost : ℚ
  preserveColors : Bool
  isInitialized : Bool
deriving Repr, DecidableEq

/-- The `LowLightCompensation` constructor:
`{threshold: 0.3, boost: 1.5, preserveColors: true, ...config}`. -/
def LowLightCompensation.new (cfg : JSValue) : LowLightCompensation :=
  { threshold := numField cfg "threshold" 0.3
    boost := numField cfg "boost" 1.5
    preserveColors := boolField cfg "preserveColors" true
    isInitialized := false }

/-- The `initialize()` method of `LowLightCompensation`: marks ready (a trivial
placeholder module). -/
def LowLightCompensation.initializeModule (m : LowLightCompensation) : LowLightCompensation :=
  { m with isInitialized := true }

/-- One RGBA pixel of `LowLightCompensation.processCanvas`: luminance
`0.299·R + 0.587·G + 0.114·B`; below `threshold` (the already-scaled
`config.threshold * 255`) the boost factor `1 + (boost-1)·(1 - lum/threshold)`
is applied per channel (`preserveColors`) or to the luminance (grayscale);
alpha is untouched. -/
def llcPixel (threshold boost : ℚ) (preserveColors : Bool) (r g b a : ℕ) : List ℕ :=
  let lum : ℚ := 299 / 1000 * r + 587 / 1000 * g + 114 / 1000 * b
  if lum < threshold then
    let factor := 1 + (boost - 1) * (1 - lum / threshold)
    if preserveColors then
      [toByte (clamp (r * factor) 0 255), toByte (clamp (g * factor) 0 255),
        toByte (clamp (b * factor) 0 255), a]
    else
      let e := clamp (lum * factor) 0 255
      [toByte e, toByte e, toByte e, a]
  else [r, g, b, a]

/-- The `for (let i = 0; i < data.length; i += 4)` loop over the byte array
(a trailing fragment shorter than one pixel is left unchanged, as the JS
`undefined`/`NaN` arithmetic makes every comparison there false). -/
def llcData (threshold boost : ℚ) (preserveColors : Bool) : List ℕ → List ℕ
  | r :: g :: b :: a :: rest =>
    llcPixel threshold boost preserveColors r g b a ++
      llcData threshold boost preserveColors rest
  | rest => rest

/-- `LowLightCompensation.processCanvas`. -/
def LowLightCompensation.processCanvas (m : LowLightCompensation) (img : ImageData) :
    ImageData :=
  { img with data := llcData (m.threshold * 255) m.boost m.preserveColors img.data }

/-- `LowLightCompensation.process(imageData)`: delegates straight to
`processCanvas` — there is no `isInitialized` check on this path. -/
def LowLightCompensation.process (m : LowLightCompensation) (img : ImageData) :
    Except String ImageData :=
  .ok (m.processCanvas img)

/-- `ColorCorrection` module state. -/
structure ColorCorrection where
  brightness : ℚ
  contrast : ℚ
  saturation : ℚ
  gamma : ℚ
  isInitialized : Bool
deriving Repr, DecidableEq

/-- The `ColorCorrection` constructor defaults
(`{brightness: 1.0, contrast: 1.0, saturation: 1.0, gamma: 1.0, ...config}`). -/
def ColorCorrection.new (cfg : JSValue) : ColorCorrection :=
  { brightness := numField cfg "brightness" 1
    contrast := numField cfg "contrast" 1
    saturation := numField cfg "saturation" 1
    gamma := numField cfg "gamma" 1
    isInitialized := false }

/-- The `initialize()` method of `ColorCorrection`: shader program, texture and buffers are the
external WebGL backend; observably the module becomes initialized. -/
def ColorCorrection.initializeModule (m : ColorCorrection) : ColorCorrection :=
  { m with isInitialized := true }

/-- `ColorCorrection.process(imageData)`: throws
`'ColorCorrection not initialized'` before `initialize()`; the shader render
itself is the external GPU backend, abstracted as `gpu`. -/
def ColorCorrection.process (gpu : ColorCorrection → ImageData → ImageData)
    (m : ColorCorrection) (img : ImageData) : Except String ImageData :=
  if m.isInitialized then .ok (gpu m img)
  else .error "ColorCorrection not initialized"

/-- `BackgroundBlur` module state. -/
structure BackgroundBlur where
  intensity : ℚ
  model : String
  isInitialized : Bool
deriving Repr, DecidableEq

/-- The `BackgroundBlur` constructor
(`{intensity: 15, model: 'simple', ...config}`). -/
def BackgroundBlur.new (cfg : JSValue) : BackgroundBlur :=
  { intensity := numField cfg "intensity" 15
    model := strField cfg "model" "simple"
    isInitialized := false }

/-- The `initialize()` method of `BackgroundBlur`: marks ready (a placeholder module). -/
def BackgroundBlur.initializeModule (m : BackgroundBlur) : BackgroundBlur :=
  { m with isInitialized := true }

/-- `BackgroundBlur.process(imageData)`: delegates straight to `processCanvas`
(a whole-frame canvas blur of radius `intensity`, abstracted as `blurFilter`)
— there is no `isInitialized` check on this path. -/
def BackgroundBlur.process (blurFilter : ℚ → ImageData → ImageData)
    (m : BackgroundBlur) (img : ImageData) : Except String ImageData :=
  .ok (blurFilter m.intensity img)

/-!
## The video pipeline
-/

/-- `VideoProcessor` state: the video sub-config, the three optional
per-frame modules, and lifecycle flags.  `id` tracks instance identity
(each `new VideoProcessor(...)` is a fresh object). -/
structure VideoProcessor where
  id : ℕ
  config : JSValue
  colorCorrection : Option ColorCorrection
  lowLightCompensation : Option LowLightCompensation
  backgroundBlur : Option BackgroundBlur
  isInitialized : Bool
deriving Repr

/-- The `VideoProcessor` constructor. -/
def VideoProcessor.new (id : ℕ) (cfg : JSValue) : VideoProcessor :=
  { id := id, config := cfg, colorCorrection := none, lowLightCompensation := none,
    backgroundBlur := none, isInitialized := false }

/-- Truthiness of `cfg.<name>?.enabled` (optional chaining: false when absent). -/
def subEnabled (cfg : JSValue) (name : String) : Bool :=
  match jsGetPath cfg [name, "enabled"] with
  | some v => truthy v
  | none => false

/-- The sub-config object passed to a module constructor (`this.config.<name>`,
possibly `undefined`, in which case the constructor spread leaves the defaults). -/
def subConfig (cfg : JSValue) (name : String) : JSValue :=
  match jsGet cfg name with
  | some v => v
  | none => .obj .nil

/-- `VideoProcessor.createProcessingModules`: creates and initializes each of
`colorCorrection`, `lowLightCompensation`, `backgroundBlur` whose feature flag
is enabled; a disabled feature leaves the field untouched.  No module is
created for `backgroundReplace`. -/
def VideoProcessor.createProcessingModules (vp : VideoProcessor) : VideoProcessor :=
  let cc := if subEnabled vp.config "colorCorrection" then
      some (ColorCorrection.initializeModule (ColorCorrection.new (subConfig vp.config "colorCorrection")))
    else vp.colorCorrection
  let llc := if subEnabled vp.config "lowLightCompensation" then
      some (LowLightCompensation.initializeModule (LowLightCompensation.new (subConfig vp.config "lowLightCompensation")))
    else vp.lowLightCompensation
  let bb := if subEnabled vp.config "backgroundBlur" then
      some (BackgroundBlur.initializeModule (BackgroundBlur.new (subConfig vp.config "backgroundBlur")))
    else vp.backgroundBlur
  { vp with colorCorrection := cc, lowLightCompensation := llc, backgroundBlur := bb }

/-- The `initialize()` method of `VideoProcessor`: the canvas/WebGL surfaces are the external
rendering backend; observably it creates the processing modules and marks the
pipeline initialized. -/
def VideoProcessor.initializePipeline (vp : VideoProcessor) : VideoProcessor :=
  { vp.createProcessingModules with isInitialized := true }

/-- `VideoProcessor.processVideoFrame`, at the pixel-buffer level (the
`VideoFrame` ↔ `ImageData` conversions are external canvas operations):
applies `lowLightCompensation`, then `colorCorrection`, then
`backgroundBlur`, each only when present, threading the buffer through and
propagating a module's thrown error.  The second component records which
modules ran, in invocation order. -/
def VideoProcessor.processVideoFrame (gpu : ColorCorrection → ImageData → ImageData)
    (blurFilter : ℚ → ImageData → ImageData) (vp : VideoProcessor) (img : ImageData) :
    Except String ImageData × List String :=
  let step1 : Except String ImageData × List String :=
    match vp.lowLightCompensation with
    | some llc => (llc.process img, ["lowLightCompensation"])
    | none => (.ok img, [])
  match step1 with
  | (.error e, t) => (.error e, t)
  | (.ok d1, t1) =>
    let step2 : Except String ImageData × List String :=
      match vp.colorCorrection with
      | some cc => (ColorCorrection.process gpu cc d1, t1 ++ ["colorCorrection"])
      | none => (.ok d1, t1)
    match step2 with
    | (.error e, t) => (.error e, t)
    | (.ok d2, t2) =>
      match vp.backgroundBlur with
      | some bb => (BackgroundBlur.process blurFilter bb d2, t2 ++ ["backgroundBlur"])
      | none => (.ok d2, t2)

/-!
## The orchestrator
-/

/-- `AudioProcessor` (audio pipeline) state as the orchestrator owns it: the
WebAudio node graph is the external audio backend; the orchestrator-level
claims only concern instance identity and the config the pipeline was built
from. -/
structure AudioProcessor where
  id : ℕ
  config : JSValue
deriving Repr

/-- The events the orchestrator emits on its event channel. -/
inductive MPEvent where
  | initialized
  | processingStart
  | processingComplete (stream : MediaStream)
  | configUpdated (config : JSValue)
  | errorEvent (message : String)
  | destroyed
deriving Repr

/-- `MediaProcessor` (orchestrator) state. -/
structure MediaProcessor where
  config : JSValue
  audioProcessor : Option AudioProcessor
  videoProcessor : Option VideoProcessor
  isProcessing : Bool
  isDestroyed : Bool
  nextId : ℕ
deriving Repr

/-- `MediaProcessor.initializeProcessors`: constructs and initializes an
audio pipeline when some audio feature is enabled and a video pipeline when
some video feature is enabled, overwriting the respective field with the
fresh instance; a domain with no enabled feature leaves its field untouched
(the old pipeline, if any, is neither destroyed nor cleared).  Emits
`initialized`. -/
def MediaProcessor.initializeProcessors (st : MediaProcessor) :
    MediaProcessor × List MPEvent :=
  let apn : Option AudioProcessor × ℕ :=
    if hasAudioFeatures st.config then
      (some { id := st.nextId, config := subConfig st.config "audio" }, st.nextId + 1)
    else (st.audioProcessor, st.nextId)
  let vpn : Option VideoProcessor × ℕ :=
    if hasVideoFeatures st.config then
      (some (VideoProcessor.initializePipeline (VideoProcessor.new apn.2 (subConfig st.config "video"))),
        apn.2 + 1)
    else (st.videoProcessor, apn.2)
  ({ st with audioProcessor := apn.1, videoProcessor := vpn.1, nextId := vpn.2 },
    [.initialized])

/-- The `MediaProcessor` constructor: merge the caller's config onto the
defaults, start non-destroyed with no pipelines, then run
`initializeProcessors`. -/
def MediaProcessor.new (userConfig : JSValue) : MediaProcessor × List MPEvent :=
  MediaProcessor.initializeProcessors
    { config := mergeConfig userConfig, audioProcessor := none, videoProcessor := none,
      isProcessing := false, isDestroyed := false, nextId := 0 }

/-- `MediaProcessor.process(stream)`.  `input = none` models a value that is
not a `MediaStream`.  The audio stage runs only when an audio pipeline exists,
some audio feature is enabled and the input stream has an audio track; the
video stage is gated the same way (both gates test the original stream's
tracks); the possibly-replaced stream is threaded through.  The pipelines'
own processing is behind the `audioRun`/`videoRun` collaborators.  Returns
the result, the successor state and the emitted events. -/
def MediaProcessor.process
    (audioRun : AudioProcessor → MediaStream → Except String MediaStream)
    (videoRun : VideoProcessor → MediaStream → Except String MediaStream)
    (st : MediaProcessor) (input : Option MediaStream) :
    Except String MediaStream × MediaProcessor × List MPEvent :=
  if st.isDestroyed then
    (.error "MediaProcessor has been destroyed", st, [])
  else
    match input with
    | none => (.error "Invalid MediaStream provided", st, [])
    | some stream =>
      let aRes : Except String MediaStream :=
        match st.audioProcessor with
        | some ap =>
          if hasAudioFeatures st.config && stream.audioTracks != 0 then audioRun ap stream
          else .ok stream
        | none => .ok stream
      match aRes with
      | .error e =>
        (.error e, { st with isProcessing := false }, [.processingStart, .errorEvent e])
      | .ok s1 =>
        let vRes : Except String MediaStream :=
          match st.videoProcessor with
          | some vp =>
            if hasVideoFeatures st.config && stream.videoTracks != 0 then videoRun vp s1
            else .ok s1
          | none => .ok s1
        match vRes with
        | .error e =>
          (.error e, { st with isProcessing := false }, [.processingStart, .errorEvent e])
        | .ok s2 =>
          (.ok s2, { st with isProcessing := false },
            [.processingStart, .processingComplete s2])

/-- `MediaProcessor.configChanged(oldConfig, newConfig)`: the
`JSON.stringify` comparison, i.e. structural inequality. -/
def configChanged (oldConfig newConfig : JSValue) : Bool :=
  !(JSValue.beq oldConfig newConfig)

/-- `MediaProcessor.updateConfig(newConfig)`: fails fast when destroyed;
otherwise merges the new config onto the defaults, re-runs
`initializeProcessors` when the merged config structurally differs from the
previous one, and emits `config:updated` with the merged config. -/
def MediaProcessor.updateConfig (st : MediaProcessor) (newConfig : JSValue) :
    Except String Unit × MediaProcessor × List MPEvent :=
  if st.isDestroyed then (.error "MediaProcessor has been destroyed", st, [])
  else
    let merged := mergeConfig newConfig
    let st1 := { st with config := merged }
    let step : MediaProcessor × List MPEvent :=
      if configChanged st.config merged then MediaProcessor.initializeProcessors st1
      else (st1, [])
    (.ok (), step.1, step.2 ++ [.configUpdated merged])

/-- `MediaProcessor.getConfig()`: a JSON round-trip deep copy of the config;
on the pure `JSValue` it is the value itself. -/
def MediaProcessor.getConfig (st : MediaProcessor) : JSValue := st.config

/-- `MediaProcessor.destroy()`: idempotent; marks destroyed, stops processing,
destroys and clears both pipelines, and emits `destroyed`. -/
def MediaProcessor.destroy (st : MediaProcessor) : MediaProcessor × List MPEvent :=
  if st.isDestroyed then (st, [])
  else
    ({ st with
        isDestroyed := true
        isProcessing := false
        audioProcessor := none
        videoProcessor := none },
      [.destroyed])

/-!
## The event emitter

Listeners act on an ambient state `σ` (their observable side effects); a
listener may throw after its effects, which `emit` catches and logs.
Listeners carry an `id` for the reference identity JS `indexOf` uses.
-/

/-- A registered listener. -/
structure Listener (σ : Type) where
  id : ℕ
  run : σ → σ × Bool

/-- The `this.events` registry: event name ↦ listeners in registration order
(the `off` path deletes a key rather than keep an empty list). -/
abbrev EventRegistry (σ : Type) := List (String × List (Listener σ))

/-- `this.events[event]` (`undefined` when the name was never registered). -/
def lookupEvent {σ : Type} : EventRegistry σ → String → Option (List (Listener σ))
  | [], _ => none
  | (k, ls) :: rest, event => if k = event then some ls else lookupEvent rest event

/-- `EventEmitter.on(event, listener)`: append to the (possibly fresh) list. -/
def EventEmitter.on {σ : Type} : EventRegistry σ → String → Listener σ →
    EventRegistry σ
  | [], event, l => [(event, [l])]
  | (k, ls) :: rest, event, l =>
    if k = event then (k, ls ++ [l]) :: rest
    else (k, ls) :: EventEmitter.on rest event l

/-- Remove the first listener with the given identity (`indexOf`/`splice`). -/
def removeListener {σ : Type} : List (Listener σ) → ℕ → List (Listener σ)
  | [], _ => []
  | l :: rest, lid => if l.id = lid then rest else l :: removeListener rest lid

/-- Delete an event's entry from the registry. -/
def deleteEvent {σ : Type} : EventRegistry σ → String → EventRegistry σ
  | [], _ => []
  | (k, ls) :: rest, event =>
    if k = event then rest else (k, ls) :: deleteEvent rest event

/-- `EventEmitter.off(event, listener?)`: with no listener, delete the whole
entry; with one, remove its first occurrence and delete the entry if the list
became empty. -/
def EventEmitter.off {σ : Type} (em : EventRegistry σ) (event : String) :
    Option ℕ → EventRegistry σ
  | none => deleteEvent em event
  | some lid =>
    match lookupEvent em event with
    | none => em
    | some ls =>
      let remaining := removeListener ls lid
      if remaining.isEmpty then deleteEvent em event
      else (deleteEvent em event) ++ [(event, remaining)]

/-- The `forEach` body of `EventEmitter.emit`: invoke every listener in order;
a listener's state effects are kept and its throw is caught (logged), so the
iteration always continues.  Returns the final state and the ids invoked, in
order. -/
def runListeners {σ : Type} : List (Listener σ) → σ → σ × List ℕ
  | [], s => (s, [])
  | l :: rest, s =>
    let step := l.run s
    let next := runListeners rest step.1
    (next.1, l.id :: next.2)

/-- `EventEmitter.emit(event, ...args)`: returns `false` doing nothing when
the event has no entry, else runs all its listeners and returns `true`.
The second and third components are the final state and the invocation
trace. -/
def EventEmitter.emit {σ : Type} (em : EventRegistry σ) (event : String) (s : σ) :
    Bool × σ × List ℕ :=
  match lookupEvent em event with
  | none => (false, s, [])
  | some ls =>
    let r := runListeners ls s
    (true, r.1, r.2)

/-- `EventEmitter.listenerCount(event)`. -/
def listenerCount {σ : Type} (em : EventRegistry σ) (event : String) : ℕ :=
  match lookupEvent em event with
  | some ls => ls.length
  | none => 0

/-- The registry invariant `on`/`off` maintain: no stored listener list is
empty (an event key exists exactly while it has listeners). -/
def RegistryWF {σ : Type} (em : EventRegistry σ) : Prop :=
  ∀ p ∈ em, p.2 ≠ []

/-!
## The automatic gain control

The AGC's arithmetic (`Math.pow`, `Math.exp`, `Math.sqrt`) is real-valued;
floating-point rounding is not modelled.
-/

/-- `dbToGain(db) = 10^(db/20)` from `core/utils`. -/
noncomputable def dbToGain (db : ℝ) : ℝ := (10 : ℝ) ^ (db / 20)

/-- `gainToDb(gain) = 20·log10(gain)` from `core/utils`. -/
noncomputable def gainToDb (gain : ℝ) : ℝ := 20 * Real.logb 10 gain

/-- `AutomaticGainControl.calculateTargetGain(inputLevel)` with the instance's
`targetLevel` and `compressionRatio`: full makeup gain below target,
compression above, converted to linear gain and clamped to
`[AGC_MIN_GAIN, AGC_MAX_GAIN] = [0.1, 10.0]`. -/
noncomputable def calculateTargetGain (targetLevel ratio inputLevel : ℝ) : ℝ :=
  let levelDifference := targetLevel - inputLevel
  let gainAdjustment :=
    if 0 < levelDifference then levelDifference else levelDifference / ratio
  clamp (dbToGain gainAdjustment) 0.1 10

/-- `AutomaticGainControl.smoothGain(newTargetGain)`: one-pole smoothing of
`currentGain` toward the target, with the attack coefficient when the gain is
rising and the release coefficient when it is falling. -/
noncomputable def smoothGain (attackCoeff releaseCoeff currentGain newTargetGain : ℝ) :
    ℝ :=
  if currentGain < newTargetGain then
    currentGain * attackCoeff + newTargetGain * (1 - attackCoeff)
  else
    currentGain * releaseCoeff + newTargetGain * (1 - releaseCoeff)

/-- `AutomaticGainControl.calculateCoefficients`:
`coeff = exp(-bufferSize / (sampleRate × timeConstant))`. -/
noncomputable def agcCoeff (sampleRate bufferSize timeConstant : ℝ) : ℝ :=
  Real.exp (-(bufferSize / (sampleRate * timeConstant)))

/-- The per-buffer gain recursion of `AutomaticGainControl.processAudio`:
`currentGain` starts at `1.0` and each buffer smooths it toward that buffer's
clamped target gain (`inputLevel n` is the measured RMS level, in dB, of the
`n`-th buffer). -/
noncomputable def agcGainSeq (ac rc targetLevel ratio : ℝ) (inputLevel : ℕ → ℝ) :
    ℕ → ℝ
  | 0 => 1
  | n + 1 =>
    smoothGain ac rc (agcGainSeq ac rc targetLevel ratio inputLevel n)
      (calculateTargetGain targetLevel ratio (inputLevel n))

/-!
## VoiceFocus statistics snapshots

`getStats()` aliasing is observable only through mutable references, so the
config's `frequencyRange` array lives on an explicit heap of numeric arrays
and the module state holds its address.
-/

/-- Array addresses. -/
abbrev Addr := ℕ

/-- A heap of JS numeric arrays. -/
structure Heap where
  arrays : List (Addr × List ℚ)
  nextAddr : Addr
deriving Repr, DecidableEq

/-- Association-list read. -/
def readArr : List (Addr × List ℚ) → Addr → Option (List ℚ)
  | [], _ => none
  | (a, xs) :: rest, addr => if a = addr then some xs else readArr rest addr

/-- Association-list in-place overwrite (no effect on an absent address). -/
def writeArr : List (Addr × List ℚ) → Addr → List ℚ → List (Addr × List ℚ)
  | [], _, _ => []
  | (a, xs) :: rest, addr, ys =>
    if a = addr then (a, ys) :: rest else (a, xs) :: writeArr rest addr ys

/-- Dereference an array. -/
def Heap.read (h : Heap) (a : Addr) : Option (List ℚ) := readArr h.arrays a

/-- Mutate the array an address denotes (what an assignment through any alias
of the array does). -/
def Heap.write (h : Heap) (a : Addr) (ys : List ℚ) : Heap :=
  { h with arrays := writeArr h.arrays a ys }

/-- Allocate a fresh array. -/
def Heap.alloc (h : Heap) (xs : List ℚ) : Heap × Addr :=
  ({ arrays := h.arrays ++ [(h.nextAddr, xs)], nextAddr := h.nextAddr + 1 },
    h.nextAddr)

/-- `VoiceFocus` state: the config scalars, the heap address of
`config.frequencyRange`, and the detection state. -/
structure VoiceFocus where
  sensitivity : ℚ
  frequencyRange : Addr
  voiceThreshold : ℚ
  smoothingFactor : ℚ
  frameCount : ℕ
  voiceDetected : Bool
  voiceConfidence : ℚ
  isInitialized : Bool
deriving Repr, DecidableEq

/-- The record `VoiceFocus.getStats()` returns. -/
structure VoiceFocusStats where
  frameCount : ℕ
  voiceDetected : Bool
  voiceConfidence : ℚ
  sensitivity : ℚ
  frequencyRange : Addr
  voiceThreshold : ℚ
deriving Repr, DecidableEq

/-- `VoiceFocus.getStats()`: a fresh record whose scalar fields are copied by
value — but whose `frequencyRange` field is `this.config.frequencyRange`
itself, the very array reference the module keeps using. -/
def VoiceFocus.getStats (vf : VoiceFocus) : VoiceFocusStats :=
  { frameCount := vf.frameCount
    voiceDetected := vf.voiceDetected
    voiceConfidence := vf.voiceConfidence
    sensitivity := vf.sensitivity
    frequencyRange := vf.frequencyRange
    voiceThreshold := vf.voiceThreshold }

/-- The filter frequencies `VoiceFocus.createFilters`/`updateFilters` derive
from `config.frequencyRange = [lowFreq, highFreq]`: high-pass at
`lowFreq × 0.8`, low-pass at `highFreq × 1.2`, peaking at the midpoint
(`none` when the array is missing or too short — the JS `undefined`
destructuring case). -/
def VoiceFocus.filterFrequencies (h : Heap) (vf : VoiceFocus) : Option (ℚ × ℚ × ℚ) :=
  match h.read vf.frequencyRange with
  | some (lowFreq :: highFreq :: _) =>
    some (lowFreq * 0.8, highFreq * 1.2, (lowFreq + highFreq) / 2)
  | _ => none

/-- `VoiceFocus.setFrequencyRange(lowFreq, highFreq)`: assigns a freshly
allocated `[clamp(low, 50, 500), clamp(high, 200, 1000)]` array to the
config. -/
def VoiceFocus.setFrequencyRange (h : Heap) (vf : VoiceFocus) (lowFreq highFreq : ℚ) :
    Heap × VoiceFocus :=
  let aRes := h.alloc [clamp lowFreq 50 500, clamp highFreq 200 1000]
  (aRes.1, { vf with frequencyRange := aRes.2 })

/-!
## Field-list lemmas
-/

/-- The number of fields (spine length). -/
def JSFields.spineLength : JSFields → ℕ
  | .nil => 0
  | .cons _ _ rest => rest.spineLength + 1

/-- Induction along a field list's spine (the `induction` tactic does not
apply to the mutual inductive directly). -/
theorem JSFields.spineInduction {motive : JSFields → Prop} (hnil : motive .nil)
    (hcons : ∀ k v rest, motive rest → motive (.cons k v rest)) (fs : JSFields) :
    motive fs := by
  have key : ∀ n (gs : JSFields), gs.spineLength ≤ n → motive gs := by
    intro n
    induction n with
    | zero =>
      intro gs h
      cases gs with
      | nil => exact hnil
      | cons k v rest => simp [JSFields.spineLength] at h
    | succ n ih =>
      intro gs h
      cases gs with
      | nil => exact hnil
      | cons k v rest =>
        refine hcons k v rest (ih rest ?_)
        simp only [JSFields.spineLength] at h
        omega
  exact key fs.spineLength fs le_rfl

theorem getField_setField_self (fs : JSFields) (key : String) (v : JSValue) :
    getField (setField fs key v) key = some v := by
  induction fs using JSFields.spineInduction with
  | hnil => simp [setField, getField]
  | hcons k w rest ih =>
    by_cases h : k = key <;> simp [setField, getField, h, ih]

theorem getField_setField_ne (fs : JSFields) (key k' : String) (v : JSValue)
    (h : k' ≠ key) :
    getField (setField fs key v) k' = getField fs k' := by
  induction fs using JSFields.spineInduction with
  | hnil => simp [setField, getField, Ne.symm h]
  | hcons k w rest ih =>
    by_cases hk : k = key
    · subst hk
      simp [setField, getField, Ne.symm h]
    · simp [setField, getField, hk, ih]

theorem mem_keys_setField (fs : JSFields) (key k : String) (v : JSValue) :
    k ∈ (setField fs key v).keys ↔ k ∈ fs.keys ∨ k = key := by
  induction fs using JSFields.spineInduction with
  | hnil => simp [setField, JSFields.keys, eq_comm]
  | hcons k0 w rest ih =>
    by_cases hk : k0 = key
    · subst hk
      simp [setField, JSFields.keys]
      tauto
    · simp [setField, JSFields.keys, hk, ih]
      tauto

theorem mem_keys_deepMergeFields_of_acc (src : JSFields) (k : String) :
    ∀ acc : JSFields, k ∈ acc.keys → k ∈ (deepMergeFields acc src).keys := by
  induction src using JSFields.spineInduction with
  | hnil => exact fun _ h => h
  | hcons key v rest ih =>
    intro acc h
    cases v <;>
      exact ih _ ((mem_keys_setField ..).mpr (Or.inl h))

theorem mem_keys_deepMergeFields_of_src (src : JSFields) (k : String) :
    k ∈ src.keys → ∀ acc : JSFields, k ∈ (deepMergeFields acc src).keys := by
  induction src using JSFields.spineInduction with
  | hnil => intro h; simp [JSFields.keys] at h
  | hcons key v rest ih =>
    intro h acc
    rw [JSFields.keys] at h
    rcases List.mem_cons.mp h with rfl | hrest
    · cases v <;>
        · simp only [deepMergeFields]
          exact mem_keys_deepMergeFields_of_acc _ _ _
            ((mem_keys_setField ..).mpr (Or.inr rfl))
    · cases v <;> exact ih hrest _

theorem getField_deepMergeFields_of_notMem (src : JSFields) (k : String) :
    k ∉ src.keys →
    ∀ acc : JSFields, getField (deepMergeFields acc src) k = getField acc k := by
  induction src using JSFields.spineInduction with
  | hnil => intro _ acc; simp [deepMergeFields]
  | hcons key v rest ih =>
    intro h acc
    rw [JSFields.keys] at h
    have hne : k ≠ key := fun e => h (e ▸ List.mem_cons_self _ _)
    have hrest : k ∉ rest.keys := fun m => h (List.mem_cons_of_mem _ m)
    cases v <;>
      simp only [deepMergeFields] <;>
      rw [ih hrest, getField_setField_ne _ _ _ _ hne]

theorem getField_deepMergeFields_of_mem (src : JSFields) (key : String)
    (v : JSValue) :
    src.keys.Nodup → getField src key = some v →
    ∀ acc : JSFields,
      getField (deepMergeFields acc src) key = some (mergeVal (getField acc key) v) := by
  induction src using JSFields.spineInduction with
  | hnil => intro _ hf; simp [getField] at hf
  | hcons k0 v0 rest ih =>
    intro hnd hf acc
    rw [JSFields.keys] at hnd
    rw [getField] at hf
    by_cases hk : k0 = key
    · rw [if_pos hk] at hf
      subst hk
      have hv : v0 = v := Option.some_inj.mp hf
      subst hv
      have hnotmem : k0 ∉ rest.keys := (List.nodup_cons.mp hnd).1
      cases v0 <;>
        simp only [deepMergeFields] <;>
        rw [getField_deepMergeFields_of_notMem _ _ hnotmem,
          getField_setField_self] <;>
        rfl
    · rw [if_neg hk] at hf
      have hacc : ∀ w, getField (setField acc k0 w) key = getField acc key :=
        fun w => getField_setField_ne _ _ _ _ (fun e => hk e.symm)
      cases v0 <;>
        simp only [deepMergeFields] <;>
        rw [ih (List.nodup_cons.mp hnd).2 hf, hacc]

/-!
## Claim theorems
-/

/-- A configuration override that wholesale-replaces the `audio` subtree with
a primitive. -/
def primitiveAudioOverride : JSValue := jobj [("audio", .num 5)]

/-- C3 counterexample: the claim quantifies over every override object, but
`mergeConfig {audio: 5}` replaces the whole `audio` subtree with the
primitive `5` (primitives replace wholesale), so the nested default key
`audio.noiseSuppression` — present in the documented defaults — is absent
from the produced configuration. -/
theorem mergeConfig_drops_nested_default_keys :
    (jsGetPath defaultConfig ["audio", "noiseSuppression"]).isSome = true ∧
    jsGet (mergeConfig primitiveAudioOverride) "audio" = some (.num 5) ∧
    jsGetPath (mergeConfig primitiveAudioOverride) ["audio", "noiseSuppression"] = none :=
  ⟨rfl, rfl, rfl⟩

/-- C3 (amended): the merged configuration contains every top-level key of
the documented defaults and every key of the override (unknown keys
preserved); a key the override does not mention keeps its default value; for
a mentioned key (override keys unique), a non-null-object override value is
merged field-by-field into the (truthy) stored value via `mergeVal`, while
primitives, arrays and `null` replace wholesale; and merging the empty
object onto any object is the identity. -/
theorem mergeConfig_merge_properties :
    (∀ ov k, k ∈ (ownFields defaultConfig).keys → k ∈ (ownFields (mergeConfig ov)).keys) ∧
    (∀ ov k, k ∈ (ownFields ov).keys → k ∈ (ownFields (mergeConfig ov)).keys) ∧
    (∀ ov k, k ∉ (ownFields ov).keys → jsGet (mergeConfig ov) k = jsGet defaultConfig k) ∧
    (∀ tfs sfs k v, sfs.keys.Nodup → getField sfs k = some v →
      getField (deepMergeFields tfs sfs) k = some (mergeVal (getField tfs k) v)) ∧
    (∀ fs, deepMerge (.obj fs) (jobj []) = .obj fs) := by
  refine ⟨?_, ?_, ?_, ?_, ?_⟩
  · exact fun ov k h => mem_keys_deepMergeFields_of_acc _ _ _ h
  · exact fun ov k h => mem_keys_deepMergeFields_of_src _ _ h _
  · exact fun ov k h => getField_deepMergeFields_of_notMem _ _ h _
  · exact fun tfs sfs k v hnd hf => getField_deepMergeFields_of_mem _ _ _ hnd hf _
  · intro fs
    rfl

/-- C1: once the orchestrator is destroyed, `process` and `updateConfig` fail
fast with the DestroyedError (`'MediaProcessor has been destroyed'`), for
every pipeline collaborator, input and new config, leaving the state
unchanged and emitting nothing — no processing and no config merge is
performed after destruction. -/
theorem destroyed_operations_fail_fast
    (audioRun : AudioProcessor → MediaStream → Except String MediaStream)
    (videoRun : VideoProcessor → MediaStream → Except String MediaStream)
    (st : MediaProcessor) (input : Option MediaStream) (newConfig : JSValue)
    (hd : st.isDestroyed = true) :
    MediaProcessor.process audioRun videoRun st input =
      (.error "MediaProcessor has been destroyed", st, []) ∧
    MediaProcessor.updateConfig st newConfig =
      (.error "MediaProcessor has been destroyed", st, []) :=
  ⟨by simp [MediaProcessor.process, hd], by simp [MediaProcessor.updateConfig, hd]⟩

/-- A destroyed orchestrator: `new` with the empty override, then `destroy`. -/
def destroyedOrchestrator : MediaProcessor :=
  (MediaProcessor.destroy (MediaProcessor.new (jobj [])).1).1

/-- Witness for C1 at a concrete destroyed orchestrator. -/
theorem destroyed_operations_fail_fast_witness :
    destroyedOrchestrator.isDestroyed = true ∧
    (MediaProcessor.process (fun _ s => .ok s) (fun _ s => .ok s)
        destroyedOrchestrator (some ⟨0, 1, 1⟩) =
      (.error "MediaProcessor has been destroyed", destroyedOrchestrator, []) ∧
    MediaProcessor.updateConfig destroyedOrchestrator (jobj []) =
      (.error "MediaProcessor has been destroyed", destroyedOrchestrator, [])) :=
  ⟨rfl, destroyed_operations_fail_fast _ _ _ _ _ rfl⟩

/-- C2: on a non-destroyed orchestrator with both domains' features enabled,
`process` on a valid stream with zero audio and zero video tracks skips both
pipelines, returns the original stream itself, and emits exactly
`processing:start` followed by `processing:complete` carrying that stream;
the only state change is clearing `isProcessing`. -/
theorem process_zero_track_stream
    (audioRun : AudioProcessor → MediaStream → Except String MediaStream)
    (videoRun : VideoProcessor → MediaStream → Except String MediaStream)
    (st : MediaProcessor) (s : MediaStream)
    (hd : st.isDestroyed = false)
    (hA : hasAudioFeatures st.config = true) (hV : hasVideoFeatures st.config = true)
    (ha : s.audioTracks = 0) (hv : s.videoTracks = 0) :
    MediaProcessor.process audioRun videoRun st (some s) =
      (.ok s, { st with isProcessing := false },
        [.processingStart, .processingComplete s]) := by
  cases hap : st.audioProcessor <;> cases hvp : st.videoProcessor <;>
    simp [MediaProcessor.process, hd, hap, hvp, ha, hv]

/-- An override enabling every audio and every video feature. -/
def allFeaturesConfig : JSValue := jobj [
  ("audio", jobj [("noiseSuppression", jobj [("enabled", .bool true)]),
    ("agc", jobj [("enabled", .bool true)]),
    ("voiceFocus", jobj [("enabled", .bool true)])]),
  ("video", jobj [("colorCorrection", jobj [("enabled", .bool true)]),
    ("lowLightCompensation", jobj [("enabled", .bool true)]),
    ("backgroundBlur", jobj [("enabled", .bool true)]),
    ("backgroundReplace", jobj [("enabled", .bool true)])])]

/-- The orchestrator built from `allFeaturesConfig`. -/
def allFeaturesOrchestrator : MediaProcessor := (MediaProcessor.new allFeaturesConfig).1

/-- Witness for C2 on a concrete all-features orchestrator and a concrete
stream with no tracks. -/
theorem process_zero_track_stream_witness :
    allFeaturesOrchestrator.isDestroyed = false ∧
    hasAudioFeatures allFeaturesOrchestrator.config = true ∧
    hasVideoFeatures allFeaturesOrchestrator.config = true ∧
    MediaProcessor.process (fun _ s => .ok s) (fun _ s => .ok s)
        allFeaturesOrchestrator (some ⟨7, 0, 0⟩) =
      (.ok ⟨7, 0, 0⟩, { allFeaturesOrchestrator with isProcessing := false },
        [.processingStart, .processingComplete ⟨7, 0, 0⟩]) :=
  ⟨rfl, by decide, by decide,
    process_zero_track_stream _ _ _ _ rfl (by decide) (by decide) rfl rfl⟩

/-- The orchestrator built with only `audio.agc` enabled. -/
def agcOnlyOrchestrator : MediaProcessor :=
  (MediaProcessor.new
    (jobj [("audio", jobj [("agc", jobj [("enabled", .bool true)])])])).1

/-- C4 counterexample: with only `audio.agc` enabled, `updateConfig({})`
merges to the all-disabled defaults — a structural change that re-runs
initialization — yet the previously constructed audio pipeline survives the
update: the audio domain has no enabled feature afterwards, but
`audioProcessor` still holds the old instance; nothing is torn down. -/
theorem updateConfig_keeps_stale_pipeline :
    agcOnlyOrchestrator.audioProcessor.isSome = true ∧
    configChanged agcOnlyOrchestrator.config (mergeConfig (jobj [])) = true ∧
    hasAudioFeatures
      (MediaProcessor.updateConfig agcOnlyOrchestrator (jobj [])).2.1.config = false ∧
    (MediaProcessor.updateConfig agcOnlyOrchestrator (jobj [])).2.1.audioProcessor =
      agcOnlyOrchestrator.audioProcessor :=
  ⟨rfl, by decide, by decide, rfl⟩

/-- C4 (amended): on a non-destroyed orchestrator, `updateConfig` merges the
new config onto the defaults; when the merged config structurally differs
from the previous one it re-runs initialization, which constructs and
initializes a fresh pipeline instance for each domain that has an enabled
feature, overwriting the reference — but it does not tear anything down: a
domain with no enabled feature keeps its previously stored pipeline (stale
instance included).  When nothing changed, only the config field is
rewritten.  `config:updated` is emitted last in both cases. -/
theorem updateConfig_reinitializes_without_teardown (st : MediaProcessor)
    (newConfig : JSValue) (hd : st.isDestroyed = false) :
    (MediaProcessor.updateConfig st newConfig).1 = .ok () ∧
    (MediaProcessor.updateConfig st newConfig).2.1.config = mergeConfig newConfig ∧
    (configChanged st.config (mergeConfig newConfig) = true →
      (MediaProcessor.updateConfig st newConfig).2.1.audioProcessor =
        (if hasAudioFeatures (mergeConfig newConfig) then
          some { id := st.nextId, config := subConfig (mergeConfig newConfig) "audio" }
        else st.audioProcessor) ∧
      (MediaProcessor.updateConfig st newConfig).2.1.videoProcessor =
        (if hasVideoFeatures (mergeConfig newConfig) then
          some (VideoProcessor.initializePipeline (VideoProcessor.new
            (if hasAudioFeatures (mergeConfig newConfig) then st.nextId + 1 else st.nextId)
            (subConfig (mergeConfig newConfig) "video")))
        else st.videoProcessor) ∧
      (MediaProcessor.updateConfig st newConfig).2.2 =
        [.initialized, .configUpdated (mergeConfig newConfig)]) ∧
    (configChanged st.config (mergeConfig newConfig) = false →
      (MediaProcessor.updateConfig st newConfig).2.1 =
        { st with config := mergeConfig newConfig } ∧
      (MediaProcessor.updateConfig st newConfig).2.2 =
        [.configUpdated (mergeConfig newConfig)]) := by
  by_cases hch : configChanged st.config (mergeConfig newConfig) = true
  · by_cases hA : hasAudioFeatures (mergeConfig newConfig) = true <;>
      by_cases hV : hasVideoFeatures (mergeConfig newConfig) = true <;>
      simp [MediaProcessor.updateConfig, MediaProcessor.initializeProcessors,
        hd, hch, hA, hV]
  · simp only [Bool.not_eq_true] at hch
    simp [MediaProcessor.updateConfig, hd, hch]

/-- Witness for the amended C4 at the concrete agc-only orchestrator. -/
theorem updateConfig_reinitializes_witness :
    agcOnlyOrchestrator.isDestroyed = false ∧
    (MediaProcessor.updateConfig agcOnlyOrchestrator (jobj [])).1 = .ok () ∧
    (MediaProcessor.updateConfig agcOnlyOrchestrator (jobj [])).2.1.config =
      mergeConfig (jobj []) :=
  ⟨rfl, (updateConfig_reinitializes_without_teardown agcOnlyOrchestrator (jobj []) rfl).1,
    (updateConfig_reinitializes_without_teardown agcOnlyOrchestrator (jobj []) rfl).2.1⟩

/-- The override enabling only `video.backgroundReplace`. -/
def backgroundReplaceOnly : JSValue :=
  jobj [("video", jobj [("backgroundReplace", jobj [("enabled", .bool true)])])]

/-- The video pipeline the orchestrator builds for that override. -/
def backgroundReplaceVP : VideoProcessor :=
  VideoProcessor.initializePipeline
    (VideoProcessor.new 0 (subConfig (mergeConfig backgroundReplaceOnly) "video"))

/-- C10: enabling only `video.backgroundReplace` makes `hasVideoFeatures`
true (and `hasAudioFeatures` false), so the orchestrator constructs and
initializes a video pipeline — yet `createProcessingModules` creates no
module for it (it knows only the other three features), so every frame
passes through the per-frame path unchanged with no module applied. -/
theorem backgroundReplace_only_empty_pipeline :
    hasVideoFeatures (mergeConfig backgroundReplaceOnly) = true ∧
    hasAudioFeatures (mergeConfig backgroundReplaceOnly) = false ∧
    (MediaProcessor.new backgroundReplaceOnly).1.audioProcessor = none ∧
    (MediaProcessor.new backgroundReplaceOnly).1.videoProcessor =
      some backgroundReplaceVP ∧
    backgroundReplaceVP.isInitialized = true ∧
    backgroundReplaceVP.colorCorrection = none ∧
    backgroundReplaceVP.lowLightCompensation = none ∧
    backgroundReplaceVP.backgroundBlur = none ∧
    (∀ (gpu : ColorCorrection → ImageData → ImageData)
        (blurFilter : ℚ → ImageData → ImageData) (img : ImageData),
      VideoProcessor.processVideoFrame gpu blurFilter backgroundReplaceVP img =
        (.ok img, [])) :=
  ⟨rfl, rfl, rfl, rfl, rfl, rfl, rfl, rfl, fun _ _ _ => rfl⟩

/-- A `LowLightCompensation` instance that was constructed (defaults:
`threshold 0.3, boost 1.5, preserveColors true`) but never initialized. -/
def uninitializedLLC : LowLightCompensation := LowLightCompensation.new (jobj [])

/-- A 1×1 dark pixel image. -/
def darkPixelImage : ImageData := { width := 1, height := 1, data := [10, 10, 10, 255] }

/-- C5 counterexample: `LowLightCompensation.process` called before
`initialize()` does not fail with a NotInitializedError — it runs the
per-pixel transform and changes the unit (luminance 10 is under the scaled
threshold 76.5, so the dark pixel is boosted from 10 to 14 per channel). -/
theorem llc_process_before_initialize_counterexample :
    uninitializedLLC.isInitialized = false ∧
    LowLightCompensation.process uninitializedLLC darkPixelImage =
      .ok { width := 1, height := 1, data := [14, 14, 14, 255] } ∧
    ([14, 14, 14, 255] : List ℕ) ≠ darkPixelImage.data := by
  refine ⟨rfl, ?_, by decide⟩
  have hfloor : ⌊(2195 : ℚ) / 153⌋ = 14 := by norm_num [Int.floor_eq_iff]
  simp only [LowLightCompensation.process, LowLightCompensation.processCanvas,
    uninitializedLLC, LowLightCompensation.new, numField, boolField, jsGet, ownFields,
    getField, jobj, JSFields.ofList, darkPixelImage, llcData, llcPixel, toByte,
    roundHalfEven, clamp]
  norm_num [min_def, max_def, hfloor]
  rfl

/-- C5 (amended): `ColorCorrection.process` does fail fast with
`'ColorCorrection not initialized'` before `initialize()` (and performs the
GPU render only when initialized) — but `LowLightCompensation.process` and
`BackgroundBlur.process` perform no initialization check at all: whatever
the `isInitialized` flag, they run their transform and return the processed
unit. -/
theorem module_process_initialization_guards
    (gpu : ColorCorrection → ImageData → ImageData)
    (blurFilter : ℚ → ImageData → ImageData)
    (cc : ColorCorrection) (llc : LowLightCompensation) (bb : BackgroundBlur)
    (img : ImageData) (hcc : cc.isInitialized = false) :
    ColorCorrection.process gpu cc img = .error "ColorCorrection not initialized" ∧
    LowLightCompensation.process llc img = .ok (llc.processCanvas img) ∧
    BackgroundBlur.process blurFilter bb img = .ok (blurFilter bb.intensity img) :=
  ⟨by simp [ColorCorrection.process, hcc], rfl, rfl⟩

/-- Witness for the amended C5 at concrete uninitialized modules. -/
theorem module_process_initialization_guards_witness :
    (ColorCorrection.new (jobj [])).isInitialized = false ∧
    ColorCorrection.process (fun _ d => d) (ColorCorrection.new (jobj []))
      darkPixelImage = .error "ColorCorrection not initialized" ∧
    LowLightCompensation.process uninitializedLLC darkPixelImage =
      .ok (uninitializedLLC.processCanvas darkPixelImage) ∧
    BackgroundBlur.process (fun _ d => d) (BackgroundBlur.new (jobj []))
      darkPixelImage = .ok darkPixelImage :=
  ⟨rfl,
    (module_process_initialization_guards (fun _ d => d) (fun _ d => d)
      (ColorCorrection.new (jobj [])) uninitializedLLC (BackgroundBlur.new (jobj []))
      darkPixelImage rfl).1,
    (module_process_initialization_guards (fun _ d => d) (fun _ d => d)
      (ColorCorrection.new (jobj [])) uninitializedLLC (BackgroundBlur.new (jobj []))
      darkPixelImage rfl).2.1,
    (module_process_initialization_guards (fun _ d => d) (fun _ d => d)
      (ColorCorrection.new (jobj [])) uninitializedLLC (BackgroundBlur.new (jobj []))
      darkPixelImage rfl).2.2⟩

/-- A video pipeline with all three per-frame modules enabled. -/
def allModulesVP : VideoProcessor :=
  VideoProcessor.initializePipeline (VideoProcessor.new 0
    (subConfig (mergeConfig (jobj [("video", jobj [
      ("colorCorrection", jobj [("enabled", .bool true)]),
      ("lowLightCompensation", jobj [("enabled", .bool true)]),
      ("backgroundBlur", jobj [("enabled", .bool true)])])])) "video"))

/-- C6 counterexample: with all three modules enabled, the per-frame path
invokes them as `lowLightCompensation`, then `colorCorrection`, then
`backgroundBlur` — not in the claimed order `colorCorrection`,
`lowLightCompensation`, `backgroundBlur`. -/
theorem video_frame_order_counterexample :
    (VideoProcessor.processVideoFrame (fun _ d => d) (fun _ d => d)
        allModulesVP darkPixelImage).2 =
      ["lowLightCompensation", "colorCorrection", "backgroundBlur"] ∧
    (["lowLightCompensation", "colorCorrection", "backgroundBlur"] : List String) ≠
      ["colorCorrection", "lowLightCompensation", "backgroundBlur"] :=
  ⟨rfl, by decide⟩

/-- C6 (amended): the per-frame path applies the enabled modules in the fixed
order `lowLightCompensation`, then `colorCorrection`, then `backgroundBlur`;
a disabled (absent) module is skipped as a no-op, and the invocation order
depends only on which modules are present — two pipelines with the same
module presence produce the same trace regardless of how or in which order
their features were enabled. -/
theorem video_frame_order_fixed
    (gpu : ColorCorrection → ImageData → ImageData)
    (blurFilter : ℚ → ImageData → ImageData)
    (vp : VideoProcessor) (img : ImageData)
    (hcc : ∀ cc, vp.colorCorrection = some cc → cc.isInitialized = true) :
    (VideoProcessor.processVideoFrame gpu blurFilter vp img).2 =
      (if vp.lowLightCompensation.isSome then ["lowLightCompensation"] else []) ++
      (if vp.colorCorrection.isSome then ["colorCorrection"] else []) ++
      (if vp.backgroundBlur.isSome then ["backgroundBlur"] else []) := by
  cases hl : vp.lowLightCompensation with
  | none =>
    cases hc : vp.colorCorrection with
    | none =>
      cases hb : vp.backgroundBlur <;>
        simp [VideoProcessor.processVideoFrame, hl, hc, hb,
          LowLightCompensation.process, BackgroundBlur.process]
    | some cc =>
      have hinit := hcc cc hc
      cases hb : vp.backgroundBlur <;>
        simp [VideoProcessor.processVideoFrame, hl, hc, hb,
          LowLightCompensation.process, ColorCorrection.process,
          BackgroundBlur.process, hinit]
  | some llc =>
    cases hc : vp.colorCorrection with
    | none =>
      cases hb : vp.backgroundBlur <;>
        simp [VideoProcessor.processVideoFrame, hl, hc, hb,
          LowLightCompensation.process, BackgroundBlur.process]
    | some cc =>
      have hinit := hcc cc hc
      cases hb : vp.backgroundBlur <;>
        simp [VideoProcessor.processVideoFrame, hl, hc, hb,
          LowLightCompensation.process, ColorCorrection.process,
          BackgroundBlur.process, hinit]

/-- Witness for the amended C6 at the concrete all-modules pipeline. -/
theorem video_frame_order_fixed_witness :
    (VideoProcessor.processVideoFrame (fun _ d => d) (fun _ d => d)
        allModulesVP darkPixelImage).2 =
      (if allModulesVP.lowLightCompensation.isSome then ["lowLightCompensation"] else []) ++
      (if allModulesVP.colorCorrection.isSome then ["colorCorrection"] else []) ++
      (if allModulesVP.backgroundBlur.isSome then ["backgroundBlur"] else []) :=
  video_frame_order_fixed (fun _ d => d) (fun _ d => d) allModulesVP darkPixelImage
    (fun cc h => by
      have h' : some (⟨1, 1, 1, 1, true⟩ : ColorCorrection) = some cc := h
      cases Option.some.inj h'
      rfl)

/-- A `VoiceFocus` instance whose `config.frequencyRange` lives at heap
address 0 with the default value `[85, 255]`. -/
def sampleVoiceFocus : VoiceFocus :=
  { sensitivity := 0.8, frequencyRange := 0, voiceThreshold := 0.3,
    smoothingFactor := 0.9, frameCount := 0, voiceDetected := false,
    voiceConfidence := 0, isInitialized := true }

/-- The heap holding that range array. -/
def sampleHeap : Heap := { arrays := [(0, [85, 255])], nextAddr := 1 }

/-- C9 counterexample: the snapshot `VoiceFocus.getStats()` returns is not
structurally independent — writing `[999, 255]` through its
`frequencyRange` field changes the module's own array, and with it the
filter frequencies the module subsequently derives (from
`(68, 306, 170)` to `(799.2, 306, 627)`). -/
theorem voicefocus_stats_alias_counterexample :
    VoiceFocus.filterFrequencies sampleHeap sampleVoiceFocus = some (68, 306, 170) ∧
    VoiceFocus.filterFrequencies
        (sampleHeap.write (VoiceFocus.getStats sampleVoiceFocus).frequencyRange
          [999, 255])
        sampleVoiceFocus = some (3996 / 5, 306, 627) ∧
    (some ((3996 : ℚ) / 5, (306 : ℚ), (627 : ℚ)) ≠ some (68, 306, 170)) := by
  refine ⟨?_, ?_, ?_⟩
  · norm_num [VoiceFocus.filterFrequencies, Heap.read, readArr, sampleHeap,
      sampleVoiceFocus]
  · norm_num [VoiceFocus.filterFrequencies, VoiceFocus.getStats, Heap.read,
      Heap.write, readArr, writeArr, sampleHeap, sampleVoiceFocus]
  · simp only [ne_eq, Option.some.injEq, Prod.mk.injEq, not_and]
    intro h
    norm_num at h

/-- C9 (amended): `VoiceFocus.getStats()` copies its scalar metrics by value,
but its `frequencyRange` field is the module's live internal array reference,
not an independent copy: writing a new `[lowFreq, highFreq]` through the
returned snapshot redirects the filter frequencies the module subsequently
derives to the written values. -/
theorem voicefocus_stats_frequencyRange_alias (vf : VoiceFocus) (h : Heap)
    (lowFreq highFreq : ℚ) (xs : List ℚ) (hr : h.read vf.frequencyRange = some xs) :
    (VoiceFocus.getStats vf).frequencyRange = vf.frequencyRange ∧
    (VoiceFocus.getStats vf).sensitivity = vf.sensitivity ∧
    (VoiceFocus.getStats vf).voiceConfidence = vf.voiceConfidence ∧
    VoiceFocus.filterFrequencies
        (h.write (VoiceFocus.getStats vf).frequencyRange [lowFreq, highFreq]) vf =
      some (lowFreq * 0.8, highFreq * 1.2, (lowFreq + highFreq) / 2) := by
  refine ⟨rfl, rfl, rfl, ?_⟩
  have hw : (h.write vf.frequencyRange [lowFreq, highFreq]).read vf.frequencyRange =
      some [lowFreq, highFreq] := by
    have : ∀ (arrs : List (Addr × List ℚ)) (a : Addr) (ys zs : List ℚ),
        readArr arrs a = some ys → readArr (writeArr arrs a zs) a = some zs := by
      intro arrs
      induction arrs with
      | nil => intro a ys zs hys; simp [readArr] at hys
      | cons p rest ih =>
        intro a ys zs hys
        by_cases hp : p.1 = a
        · simp [readArr, writeArr, hp]
        · rw [readArr] at hys
          rw [if_neg hp] at hys
          simp [readArr, writeArr, hp]
          exact ih a ys zs hys
    exact this h.arrays vf.frequencyRange xs [lowFreq, highFreq] hr
  simp [VoiceFocus.filterFrequencies, VoiceFocus.getStats] at hw ⊢
  rw [hw]

/-- Witness for the amended C9 at the concrete module and heap. -/
theorem voicefocus_stats_alias_witness :
    sampleHeap.read sampleVoiceFocus.frequencyRange = some [85, 255] ∧
    VoiceFocus.filterFrequencies
        (sampleHeap.write (VoiceFocus.getStats sampleVoiceFocus).frequencyRange
          [999, 255])
        sampleVoiceFocus = some (999 * 0.8, 255 * 1.2, (999 + 255) / 2) :=
  ⟨rfl, (voicefocus_stats_frequencyRange_alias sampleVoiceFocus sampleHeap
    999 255 [85, 255] rfl).2.2.2⟩

/-!
## Event emitter lemmas
-/

theorem runListeners_spec {σ : Type} (ls : List (Listener σ)) (s : σ) :
    runListeners ls s =
      (ls.foldl (fun st l => (l.run st).1) s, ls.map Listener.id) := by
  induction ls generalizing s with
  | nil => rfl
  | cons l rest ih => simp [runListeners, ih, List.foldl]

theorem lookupEvent_mem {σ : Type} (em : EventRegistry σ) (event : String)
    (ls : List (Listener σ)) (h : lookupEvent em event = some ls) :
    (event, ls) ∈ em := by
  induction em with
  | nil => simp [lookupEvent] at h
  | cons q rest ih =>
    obtain ⟨k, ks⟩ := q
    rw [lookupEvent] at h
    by_cases hk : k = event
    · subst hk
      rw [if_pos rfl] at h
      rw [← Option.some_inj.mp h]
      exact List.mem_cons_self _ _
    · rw [if_neg hk] at h
      exact List.mem_cons_of_mem _ (ih h)

theorem registryWF_deleteEvent {σ : Type} (em : EventRegistry σ) (event : String)
    (hwf : RegistryWF em) : RegistryWF (deleteEvent em event) := by
  induction em with
  | nil => exact hwf
  | cons q rest ih =>
    obtain ⟨k, ks⟩ := q
    rw [deleteEvent]
    by_cases hk : k = event
    · rw [if_pos hk]
      exact fun p hp => hwf p (List.mem_cons_of_mem _ hp)
    · rw [if_neg hk]
      intro p hp
      rcases List.mem_cons.mp hp with rfl | hp'
      · exact hwf _ (List.mem_cons_self _ _)
      · exact ih (fun q hq => hwf q (List.mem_cons_of_mem _ hq)) p hp'

theorem registryWF_on {σ : Type} (em : EventRegistry σ) (event : String)
    (l : Listener σ) (hwf : RegistryWF em) :
    RegistryWF (EventEmitter.on em event l) := by
  induction em with
  | nil =>
    intro p hp
    rw [List.mem_singleton.mp hp]
    simp
  | cons q rest ih =>
    obtain ⟨k, ks⟩ := q
    rw [EventEmitter.on]
    by_cases hk : k = event
    · rw [if_pos hk]
      intro p hp
      rcases List.mem_cons.mp hp with rfl | hp'
      · simp
      · exact hwf p (List.mem_cons_of_mem _ hp')
    · rw [if_neg hk]
      intro p hp
      rcases List.mem_cons.mp hp with rfl | hp'
      · exact hwf _ (List.mem_cons_self _ _)
      · exact ih (fun q hq => hwf q (List.mem_cons_of_mem _ hq)) p hp'

theorem registryWF_off {σ : Type} (em : EventRegistry σ) (event : String)
    (o : Option ℕ) (hwf : RegistryWF em) :
    RegistryWF (EventEmitter.off em event o) := by
  cases o with
  | none => exact registryWF_deleteEvent em event hwf
  | some lid =>
    rw [EventEmitter.off]
    cases hlk : lookupEvent em event with
    | none => exact hwf
    | some ls =>
      by_cases hrem : (removeListener ls lid).isEmpty
      · simp only [hrem, if_pos]
        exact registryWF_deleteEvent em event hwf
      · simp only [hrem, Bool.false_eq_true, if_neg, not_false_iff]
        intro p hp
        rcases List.mem_append.mp hp with hp' | hp'
        · exact registryWF_deleteEvent em event hwf p hp'
        · rw [List.mem_singleton.mp hp']
          simpa [List.isEmpty_iff] using hrem

/-- C8: `emit` returns true exactly when at least one handler is registered
for the name (given the `on`/`off` invariant that stored lists are
non-empty, which both operations preserve); when the name is registered it
invokes every listener synchronously in registration order — the invocation
trace lists all their ids in order even when some of them throw, a throw
being caught so the remaining handlers still run and nothing propagates to
`emit`'s caller — and the final state is the left-to-right fold of the
handlers' effects; with no handlers it does nothing and returns false. -/
theorem emit_contract {σ : Type} (em : EventRegistry σ) (event : String) (s : σ)
    (hwf : RegistryWF em) :
    ((EventEmitter.emit em event s).1 = true ↔ 0 < listenerCount em event) ∧
    (∀ ls, lookupEvent em event = some ls →
      EventEmitter.emit em event s =
        (true, ls.foldl (fun st l => (l.run st).1) s, ls.map Listener.id)) ∧
    (lookupEvent em event = none → EventEmitter.emit em event s = (false, s, [])) ∧
    (∀ l, RegistryWF (EventEmitter.on em event l)) ∧
    (∀ o, RegistryWF (EventEmitter.off em event o)) := by
  refine ⟨?_, ?_, ?_, fun l => registryWF_on em event l hwf,
    fun o => registryWF_off em event o hwf⟩
  · cases hlk : lookupEvent em event with
    | none => simp [EventEmitter.emit, listenerCount, hlk]
    | some ls =>
      have hne : ls ≠ [] := hwf _ (lookupEvent_mem em event ls hlk)
      simp [EventEmitter.emit, listenerCount, hlk, List.length_pos, hne]
  · intro ls hlk
    simp [EventEmitter.emit, hlk, runListeners_spec]
  · intro hlk
    simp [EventEmitter.emit, hlk]

/-- A registry over log states: listener 1 appends `1` and then throws,
listener 2 appends `2` and returns normally. -/
def loggingRegistry : EventRegistry (List ℕ) :=
  [("x", [⟨1, fun st => (st ++ [1], true)⟩, ⟨2, fun st => (st ++ [2], false)⟩])]

/-- Witness for C8: even though listener 1 throws, listener 2 still runs and
`emit` returns normally with both effects applied; an unregistered name
returns false and does nothing. -/
theorem emit_contract_witness :
    RegistryWF loggingRegistry ∧
    EventEmitter.emit loggingRegistry "x" ([] : List ℕ) = (true, [1, 2], [1, 2]) ∧
    EventEmitter.emit loggingRegistry "y" ([] : List ℕ) = (false, [], []) := by
  have hwf : RegistryWF loggingRegistry := by
    intro p hp
    rw [List.mem_singleton.mp hp]
    simp
  refine ⟨hwf, ?_, ?_⟩
  · exact ((emit_contract loggingRegistry "x" [] hwf).2.1 _ rfl).trans rfl
  · exact (emit_contract loggingRegistry "y" [] hwf).2.2.1 rfl

/-- C7: for the AGC at `targetLevel = -20`, `compressionRatio = 3` fed
constant `-40 dB` buffers: the per-buffer target gain is
`10^((targetLevel - inputLevelDb)/20)` clamped to `[0.1, 10]` (the dB
difference divided by the ratio when the input is louder than target), and
at `-40 dB` it equals the full `10`; with the attack coefficient
`exp(-bufferSize/(sampleRate·attackTime))` (strictly between 0 and 1 for
positive parameters, approaching 0 with `attackTime`), the applied gain
after the first buffer already exceeds 1, increases strictly monotonically
with the closed form `10 - 9·ac^n` converging to the target gain `10`, and —
for arbitrary inputs, target, ratio and any smoothing coefficients in
`[0, 1]` — the applied gain never exceeds `10`. -/
theorem agc_gain_convergence (sampleRate bufferSize attackTime rc ac : ℝ)
    (hsr : 0 < sampleRate) (hbs : 0 < bufferSize) (hat : 0 < attackTime)
    (hac : ac = agcCoeff sampleRate bufferSize attackTime) :
    calculateTargetGain (-20) 3 (-40) = 10 ∧
    (∀ t r i : ℝ, i < t → calculateTargetGain t r i = clamp (dbToGain (t - i)) 0.1 10) ∧
    (∀ t r i : ℝ, t < i →
      calculateTargetGain t r i = clamp (dbToGain ((t - i) / r)) 0.1 10) ∧
    (∀ n, agcGainSeq ac rc (-20) 3 (fun _ => -40) n = 10 - 9 * ac ^ n) ∧
    1 < agcGainSeq ac rc (-20) 3 (fun _ => -40) 1 ∧
    (∀ n, agcGainSeq ac rc (-20) 3 (fun _ => -40) n <
      agcGainSeq ac rc (-20) 3 (fun _ => -40) (n + 1)) ∧
    Filter.Tendsto (agcGainSeq ac rc (-20) 3 (fun _ => -40)) Filter.atTop (nhds 10) ∧
    (∀ (t r : ℝ) (lvl : ℕ → ℝ) (a b : ℝ), 0 ≤ a → a ≤ 1 → 0 ≤ b → b ≤ 1 →
      ∀ n, agcGainSeq a b t r lvl n ≤ 10) := by
  have hpos : 0 < ac := hac ▸ Real.exp_pos _
  have hlt1 : ac < 1 := by
    rw [hac, agcCoeff, Real.exp_lt_one_iff]
    have hq : 0 < bufferSize / (sampleRate * attackTime) :=
      div_pos hbs (mul_pos hsr hat)
    linarith
  have hdb : dbToGain 20 = 10 := by
    rw [dbToGain, show (20 : ℝ) / 20 = (1 : ℝ) from by norm_num, Real.rpow_one]
  have htg : calculateTargetGain (-20) 3 (-40) = 10 := by
    simp only [calculateTargetGain]
    rw [if_pos (by norm_num : (0 : ℝ) < -20 - -40),
      show (-20 : ℝ) - -40 = 20 from by norm_num, hdb]
    norm_num [clamp, min_def, max_def]
  have hclosed : ∀ n, agcGainSeq ac rc (-20) 3 (fun _ => -40) n = 10 - 9 * ac ^ n := by
    intro n
    induction n with
    | zero => norm_num [agcGainSeq]
    | succ n ih =>
      have hlt10 : agcGainSeq ac rc (-20) 3 (fun _ => -40) n < 10 := by
        rw [ih]
        have := pow_pos hpos n
        linarith
      simp only [agcGainSeq, htg, smoothGain]
      rw [if_pos hlt10, ih]
      ring
  refine ⟨htg, ?_, ?_, hclosed, ?_, ?_, ?_, ?_⟩
  · intro t r i h
    simp only [calculateTargetGain]
    rw [if_pos (sub_pos.mpr h)]
  · intro t r i h
    simp only [calculateTargetGain]
    rw [if_neg (not_lt.mpr (le_of_lt (sub_neg.mpr h)))]
  · rw [hclosed 1, pow_one]
    linarith
  · intro n
    rw [hclosed n, hclosed (n + 1)]
    have h1 : ac ^ (n + 1) < ac ^ n := by
      rw [pow_succ]
      have h2 := pow_pos hpos n
      nlinarith
    linarith
  · have hp := tendsto_pow_atTop_nhds_zero_of_lt_one hpos.le hlt1
    have h9 := hp.const_mul (9 : ℝ)
    have hs := Filter.Tendsto.const_sub (10 : ℝ) h9
    simp only [mul_zero, sub_zero] at hs
    exact hs.congr fun n => (hclosed n).symm
  · intro t r lvl a b ha0 ha1 hb0 hb1 n
    induction n with
    | zero => norm_num [agcGainSeq]
    | succ n ih =>
      have htle : calculateTargetGain t r (lvl n) ≤ 10 := by
        simp only [calculateTargetGain, clamp]
        exact min_le_right _ _
      simp only [agcGainSeq, smoothGain]
      by_cases hcase :
        agcGainSeq a b t r lvl n < calculateTargetGain t r (lvl n)
      · rw [if_pos hcase]
        nlinarith
      · rw [if_neg hcase]
        nlinarith

/-- Witness for C7 at `sampleRate = 48000`, `bufferSize = 1024`,
`attackTime = 1/1000` and release coefficient `1/2`. -/
theorem agc_gain_convergence_witness :
    (0 : ℝ) < 48000 ∧ (0 : ℝ) < 1024 ∧ (0 : ℝ) < 1 / 1000 ∧
    calculateTargetGain (-20) 3 (-40) = 10 ∧
    1 < agcGainSeq (agcCoeff 48000 1024 (1 / 1000)) (1 / 2) (-20) 3
      (fun _ => -40) 1 :=
  ⟨by norm_num, by norm_num, by norm_num,
    (agc_gain_convergence 48000 1024 (1 / 1000) (1 / 2)
      (agcCoeff 48000 1024 (1 / 1000)) (by norm_num) (by norm_num) (by norm_num)
      rfl).1,
    (agc_gain_convergence 48000 1024 (1 / 1000) (1 / 2)
      (agcCoeff 48000 1024 (1 / 1000)) (by norm_num) (by norm_num) (by norm_num)
      rfl).2.2.2.2.1⟩

end MediaSpec
